import Mathlib

/-!
Shallow embedding of the chat backend (`src/backend/chat backened_version_3.0.py`).

Python dicts are modelled as insertion-ordered association lists with unique
keys (`alookup` / `aset` / `aremove` mirror `d[k]`, `d[k] = v`, `del d[k]` /
`d.pop(k)`).  The SocketIO event handlers become pure functions from the
inbound event data, the in-memory state (`users_in_rooms` plus the transport's
room-subscription groups) and the outcomes of the external collaborators
(Gemini classifier, Firestore) to the new state and the ordered list of
`emit(...)` calls the handler performs.
-/

namespace Chat

/-- First-match association lookup, modelling `k in d` / `d[k]` on a Python dict. -/
def alookup {β : Type} : List (String × β) → String → Option β
  | [], _ => none
  | (k, v) :: rest, key => if k = key then some v else alookup rest key

/-- Association update, modelling `d[k] = v`: replaces the value at an existing
key in place, otherwise appends the new binding (Python dicts keep insertion
order and a freshly inserted key goes last). -/
def aset {β : Type} : List (String × β) → String → β → List (String × β)
  | [], key, val => [(key, val)]
  | (k, v) :: rest, key, val =>
      if k = key then (k, val) :: rest else (k, v) :: aset rest key val

/-- Association removal, modelling `del d[k]` / `d.pop(k)`: removes the first
binding with the given key. -/
def aremove {β : Type} : List (String × β) → String → List (String × β)
  | [], _ => []
  | (k, v) :: rest, key => if k = key then rest else (k, v) :: aremove rest key

/-- Python truthiness of an optional string field: `data.get(k)` is falsy when
the key is absent (`None`) or the value is the empty string. -/
def falsy : Option String → Bool
  | none => true
  | some s => s = ""

/-- One record of the `chat_history` payload, as built in `handle_join_room`
(lines 167-174): the stored fields are copied through `msg_data.get`, with the
moderation fields defaulting to `"N/A"`.  The timestamp is modelled as a `Nat`
(the `isoformat` serialisation is order-preserving). -/
structure HistEntry where
  userId : Option String
  username : Option String
  message : Option String
  timestamp : Nat
  moderation_status : String
  moderation_reason : String
  deriving DecidableEq

/-- Payload of one `emit(...)` call, one constructor per payload shape the
backend actually constructs.  (The `broadcast_message` dict of lines 249-256
is never constructed — see `handle_message` — so no constructor models it.) -/
inductive Payload where
  | statusMsg (message : String)
  | errorMsg (message : String)
  | userEvent (userId username : String)
  | chatHistory (messages : List HistEntry)
  deriving DecidableEq

/-- Where an `emit` is addressed: `sid s` models both the default target (the
requesting connection) and `room=request.sid`; `room r skip` models
`room=r, skip_sid=skip`. -/
inductive Target where
  | sid (s : String)
  | room (r : String) (skip : Option String)
  deriving DecidableEq

/-- One `emit(event, payload, ...)` call performed by a handler. -/
structure EmitCall where
  event : String
  payload : Payload
  target : Target
  deriving DecidableEq

/-- The `{status, reason}` dictionary returned by `moderate_message`. -/
structure ModerationResult where
  status : String
  reason : String
  deriving DecidableEq

/-- Outcome of the remote Gemini call in `moderate_message`: either the whole
guarded block raises (transport, parse or remote error), or a JSON object is
decoded whose `is_safe` / `reason` members are read with `dict.get` (hence
`Option`: a missing member yields `None`). -/
inductive GeminiOutcome where
  | throwErr (detail : String)
  | ok (is_safe : Option Bool) (reason : Option String)
  deriving DecidableEq

/-- Embedding of `moderate_message` (lines 66-108).  `modelConfigured` is
whether the module-level `model` is non-`None`; `outcome` abstracts the remote
call.  `moderation_result.get("is_safe")` is truthy exactly when the decoded
member is `some true`. -/
def moderate_message (modelConfigured : Bool) (outcome : GeminiOutcome)
    (text : String) : ModerationResult :=
  if !modelConfigured then
    ⟨"skipped", "AI unavailable"⟩
  else
    match outcome with
    | .throwErr e => ⟨"error", "AI moderation failed: " ++ e⟩
    | .ok is_safe reason =>
        if is_safe.getD false then
          ⟨"safe", "N/A"⟩
        else
          ⟨"unsafe", reason.getD "Content flagged by AI."⟩

/-- Inbound `send_message` event data: each field is `data.get(...)`. -/
structure MsgData where
  room : Option String
  userId : Option String
  username : Option String
  message : Option String
  deriving DecidableEq

/-- The `message_to_save` record that lines 229-237 would pass to the
Firestore `add` call.  Its `timestamp` field would be the
`firestore.SERVER_TIMESTAMP` sentinel, a constant, so it is not carried here.
On the source's actual control flow this record is never constructed (the
handler raises on line 226 first); the type only gives `MsgResult.persisted`
its payload. -/
structure SavedMessage where
  room : String
  userId : String
  username : String
  message : String
  moderation_status : String
  moderation_reason : String
  deriving DecidableEq

/-- Outcome of the Firestore write in `handle_message`: the guarded block
either completes or raises with some detail string. -/
inductive DbWriteOutcome where
  | ok
  | fail (detail : String)
  deriving DecidableEq

/-- Result of `handle_message`: the emitted calls performed before the
handler returned or raised, the record passed to the store when a persistence
attempt was made, whether the body of `moderate_message` ever executed, and
the uncaught exception if the handler raised (it propagates to the SocketIO
dispatcher, which logs it; the process survives but the handler is aborted).
The handler never touches `users_in_rooms` or the room subscriptions, so no
state component appears. -/
structure MsgResult where
  emits : List EmitCall
  persisted : Option SavedMessage
  moderationRan : Bool
  raised : Option String
  deriving DecidableEq

/-- The uncaught exception of `handle_message` line 226: `moderate_message`
is an `async def`, so the greenlet spawned on line 225 returns the un-awaited
coroutine object created by calling it (its body never runs), and
`moderation_result['status']` subscripts that coroutine. -/
def coroutineSubscriptError : String :=
  "TypeError: 'coroutine' object is not subscriptable"

/-- Embedding of `handle_message` (lines 206-259).  `sid` is `request.sid`;
`db` is `none` when the Firestore client failed to initialise, otherwise it
carries the outcome a write attempt would have; `modelConfigured` and `gem`
are the moderation collaborator's state and outcome.

Control flow of the source: after validation, line 225 evaluates
`gevent.spawn(moderate_message, message_text).get()`.  Because
`moderate_message` is `async def`, the greenlet's call returns an un-awaited
coroutine object without executing the moderation body, and line 226
(`moderation_result['status']`) raises `TypeError` on every valid message.
Everything after line 226 — the `message_to_save` record, the `if db:`
persistence attempt (line 239), the `broadcast_message` construction
(line 253, which would itself raise: `isinstance(timestamp,
firestore.SERVER_TIMESTAMP)` with the Sentinel *instance* as second argument
is a `TypeError`, and the `else` branch an `AttributeError`) and the
`receive_message` emit (line 258) — is unreachable.  The three collaborator
parameters are therefore never consulted on the valid path. -/
def handle_message (sid : String) (modelConfigured : Bool) (gem : GeminiOutcome)
    (db : Option DbWriteOutcome) (data : MsgData) : MsgResult :=
  if falsy data.room || falsy data.userId || falsy data.username ||
      falsy data.message then
    ⟨[⟨"error", .errorMsg "Room, userId, username, and message are required.",
        .sid sid⟩], none, false, none⟩
  else
    ⟨[], none, false, some coroutineSubscriptError⟩

/-- Server-side in-memory state: the module-level `users_in_rooms` dict
(room ↦ (userId ↦ username)) together with the transport's room-subscription
groups (room ↦ member sids), mutated by the SocketIO `join_room` /
`leave_room` primitives. -/
structure ServerState where
  users_in_rooms : List (String × List (String × String))
  subs : List (String × List String)
  deriving DecidableEq

/-- The sids currently subscribed to a room's broadcast group. -/
def roomSubs (subs : List (String × List String)) (room : String) : List String :=
  (alookup subs room).getD []

/-- SocketIO `join_room(room)`: adds the requesting sid to the room's group
(idempotent, set semantics). -/
def joinSub (subs : List (String × List String)) (room sid : String) :
    List (String × List String) :=
  let group := roomSubs subs room
  aset subs room (if sid ∈ group then group else group ++ [sid])

/-- SocketIO `leave_room(room)`: removes the requesting sid from the room's
group. -/
def leaveSub (subs : List (String × List String)) (room sid : String) :
    List (String × List String) :=
  aset subs room ((roomSubs subs room).filter (fun s => s ≠ sid))

/-- Whether connection `c` is delivered an emitted call, given the current
subscription groups: an emit addressed to a sid reaches exactly that
connection; an emit addressed to a room reaches its subscribers minus the
skipped sid. -/
def receivesEmit (subs : List (String × List String)) (c : String)
    (e : EmitCall) : Bool :=
  match e.target with
  | .sid s => c = s
  | .room r skip => decide (c ∈ roomSubs subs r) && !(skip = some c : Bool)

/-- One message document of the external store's `chat_messages` collection,
as written by `handle_message`: all fields present, the server timestamp
modelled as a `Nat`. -/
structure StoredMsg where
  room : String
  userId : String
  username : String
  message : String
  timestamp : Nat
  moderation_status : String
  moderation_reason : String
  deriving DecidableEq

/-- Timestamp order on stored messages, the `order_by('timestamp')` key. -/
def tsLe (a b : StoredMsg) : Prop := a.timestamp ≤ b.timestamp

instance : DecidableRel tsLe := fun a b => Nat.decLe a.timestamp b.timestamp

instance : IsTotal StoredMsg tsLe := ⟨fun a b => Nat.le_total a.timestamp b.timestamp⟩

instance : IsTrans StoredMsg tsLe := ⟨fun _ _ _ => Nat.le_trans⟩

/-- Embedding of the history query of `handle_join_room` (line 160):
`.where('room', '==', room).order_by('timestamp').limit(20)`.  Firestore's
`order_by` defaults to ascending and `limit(n)` keeps the first `n` results of
that ordering, so the query returns the 20 *earliest* messages of the room in
ascending timestamp order. -/
def fetchHistory (store : List StoredMsg) (room : String) : List StoredMsg :=
  (List.insertionSort tsLe (store.filter (fun m => m.room = room))).take 20

/-- Conversion of a fetched document into a `chat_history` entry
(lines 166-174): plain `get` for identity and text fields, `'N/A'` defaults
for the moderation fields.  All fields are present on documents written by
this backend. -/
def docToHist (m : StoredMsg) : HistEntry :=
  ⟨some m.userId, some m.username, some m.message, m.timestamp,
    m.moderation_status, m.moderation_reason⟩

/-- Inbound `join_room` event data. -/
structure JoinData where
  room : Option String
  userId : Option String
  username : Option String
  deriving DecidableEq

/-- Embedding of `handle_join_room` (lines 133-181).  `db` is `none` when the
Firestore client failed to initialise, otherwise it carries the store's
current contents; `histErr` models the guarded fetch raising. -/
def handle_join_room (sid : String) (db : Option (List StoredMsg))
    (histErr : Option String) (st : ServerState) (data : JoinData) :
    ServerState × List EmitCall :=
  if falsy data.room || falsy data.userId || falsy data.username then
    (st, [⟨"error", .errorMsg "Room, userId, and username are required to join.",
        .sid sid⟩])
  else
    let room := data.room.getD ""
    let user_id := data.userId.getD ""
    let username := data.username.getD ""
    let subs' := joinSub st.subs room sid
    let inner := (alookup st.users_in_rooms room).getD []
    let users' := aset st.users_in_rooms room (aset inner user_id username)
    let joinedEmit : EmitCall :=
      ⟨"user_joined", .userEvent user_id username, .room room (some sid)⟩
    let histEmits : List EmitCall :=
      match db with
      | none =>
          [⟨"error", .errorMsg "Firestore not available, cannot load history.",
            .sid sid⟩]
      | some store =>
          match histErr with
          | some e =>
              [⟨"error", .errorMsg ("Failed to load chat history: " ++ e),
                .sid sid⟩]
          | none =>
              [⟨"chat_history",
                .chatHistory ((fetchHistory store room).map docToHist),
                .sid sid⟩]
    (⟨users', subs'⟩, joinedEmit :: histEmits)

/-- Inbound `leave_room` event data. -/
structure LeaveData where
  room : Option String
  userId : Option String
  deriving DecidableEq

/-- Embedding of `handle_leave_room` (lines 184-203).  The connection is
removed from the broadcast group before the membership check; a missing
membership is only logged. -/
def handle_leave_room (sid : String) (st : ServerState) (data : LeaveData) :
    ServerState × List EmitCall :=
  if falsy data.room || falsy data.userId then
    (st, [⟨"error", .errorMsg "Room and userId are required to leave.",
        .sid sid⟩])
  else
    let room := data.room.getD ""
    let user_id := data.userId.getD ""
    let subs' := leaveSub st.subs room sid
    match alookup st.users_in_rooms room with
    | some inner =>
        match alookup inner user_id with
        | some username =>
            (⟨aset st.users_in_rooms room (aremove inner user_id), subs'⟩,
              [⟨"user_left", .userEvent user_id username, .room room none⟩])
        | none => (⟨st.users_in_rooms, subs'⟩, [])
    | none => (⟨st.users_in_rooms, subs'⟩, [])

/-- The scan of `handle_disconnect` (lines 126-131): walk the rooms in dict
order, and in the first room whose membership dict has `request.sid` as a
*userId key*, delete that entry, emit one `user_left` with the sid and the
placeholder name, and stop (`break`). -/
def disconnectScan (sid : String) :
    List (String × List (String × String)) →
      List (String × List (String × String)) × List EmitCall
  | [] => ([], [])
  | (r, users) :: rest =>
      if (alookup users sid).isSome then
        ((r, aremove users sid) :: rest,
          [⟨"user_left", .userEvent sid "A user", .room r (some sid)⟩])
      else
        let res := disconnectScan sid rest
        ((r, users) :: res.1, res.2)

/-- Embedding of `handle_disconnect` (lines 122-131). -/
def handle_disconnect (sid : String) (st : ServerState) :
    ServerState × List EmitCall :=
  let res := disconnectScan sid st.users_in_rooms
  (⟨res.1, st.subs⟩, res.2)

/-- The state-mutating SocketIO events, with the external-collaborator
outcomes a join needs. -/
inductive PresenceEvent where
  | join (sid : String) (db : Option (List StoredMsg)) (histErr : Option String)
      (data : JoinData)
  | leave (sid : String) (data : LeaveData)
  | disc (sid : String)
  deriving DecidableEq

/-- State transition of one event (the emitted calls are dropped). -/
def stepState (st : ServerState) : PresenceEvent → ServerState
  | .join sid db histErr data => (handle_join_room sid db histErr st data).1
  | .leave sid data => (handle_leave_room sid st data).1
  | .disc sid => (handle_disconnect sid st).1

/-- Run a sequence of events from a state. -/
def runEvents (st : ServerState) : List PresenceEvent → ServerState
  | [] => st
  | e :: rest => runEvents (stepState st e) rest

/-- The state at server start: no rooms, no subscriptions. -/
def emptyState : ServerState := ⟨[], []⟩

/-- Number of rooms whose membership dict contains `u` as a userId key. -/
def userRoomCount (uir : List (String × List (String × String)))
    (u : String) : Nat :=
  uir.countP (fun p => (alookup p.2 u).isSome)

/-- The single-room invariant of the spec: every user identifier is a member
of at most one room. -/
def membershipInvariant (uir : List (String × List (String × String))) : Prop :=
  ∀ u, userRoomCount uir u ≤ 1

/-- Discipline on one event: a join is only issued for a user who is currently
a member of no room.  The data structures do not enforce this; it is the
client-usage assumption under which the single-room invariant holds. -/
def okEventB (st : ServerState) : PresenceEvent → Bool
  | .join _ _ _ data => userRoomCount st.users_in_rooms (data.userId.getD "") == 0
  | _ => true

/-- Discipline along a whole event sequence. -/
def okTraceB : ServerState → List PresenceEvent → Bool
  | _, [] => true
  | st, e :: rest => okEventB st e && okTraceB (stepState st e) rest

/-- All timestamps carried inside `chat_history` payloads of an emit list. -/
def historyTimestamps (emits : List EmitCall) : List Nat :=
  emits.foldr
    (fun e acc =>
      match e.payload with
      | .chatHistory msgs => msgs.map (fun m => m.timestamp) ++ acc
      | _ => acc) []

/-- A store holding 21 messages of room r1 with timestamps 0..20, the message
with timestamp 20 being the most recent. -/
def storeC4 : List StoredMsg :=
  (List.range 21).map (fun i => ⟨"r1", "u1", "Alice", "hello", i, "safe", "N/A"⟩)

/-! Association-list lemmas. -/

theorem alookup_aset_self {β : Type} (l : List (String × β)) (k : String)
    (v : β) : alookup (aset l k v) k = some v := by
  induction l with
  | nil => simp [aset, alookup]
  | cons p rest ih =>
      obtain ⟨k', v'⟩ := p
      by_cases h : k' = k
      · simp [aset, h, alookup]
      · simp [aset, h, alookup, ih]

theorem alookup_aset_ne {β : Type} (l : List (String × β)) (k k' : String)
    (v : β) (h : k' ≠ k) : alookup (aset l k v) k' = alookup l k' := by
  have hk : ¬k = k' := fun hh => h hh.symm
  induction l with
  | nil => simp [aset, alookup, hk]
  | cons p rest ih =>
      obtain ⟨k0, v0⟩ := p
      by_cases h0 : k0 = k
      · subst h0
        simp [aset, alookup, hk]
      · simp [aset, h0, alookup, ih]

theorem alookup_aremove_ne {β : Type} (l : List (String × β)) (k k' : String)
    (h : k' ≠ k) : alookup (aremove l k) k' = alookup l k' := by
  induction l with
  | nil => simp [aremove]
  | cons p rest ih =>
      obtain ⟨k0, v0⟩ := p
      by_cases h0 : k0 = k
      · subst h0
        have hk : ¬k0 = k' := fun hh => h hh.symm
        simp [aremove, alookup, hk]
      · simp [aremove, h0, alookup, ih]

theorem alookup_isSome_aremove {β : Type} (l : List (String × β))
    (k u : String) (h : (alookup (aremove l k) u).isSome = true) :
    (alookup l u).isSome = true := by
  induction l with
  | nil => simpa [aremove] using h
  | cons p rest ih =>
      obtain ⟨k0, v0⟩ := p
      by_cases h0 : k0 = k
      · subst h0
        simp only [aremove, if_pos rfl] at h
        by_cases hu : k0 = u
        · simp [alookup, hu]
        · simpa [alookup, hu] using h
      · by_cases hu : k0 = u
        · simp [alookup, hu]
        · simp only [aremove, if_neg h0] at h
          simp only [alookup, if_neg hu] at h ⊢
          exact ih h

/-! Counting lemmas for the membership invariant. -/

theorem userRoomCount_aset_same (uir : List (String × List (String × String)))
    (room u : String) (newInner : List (String × String))
    (h : (alookup newInner u).isSome
          = (alookup ((alookup uir room).getD []) u).isSome) :
    userRoomCount (aset uir room newInner) u = userRoomCount uir u := by
  induction uir with
  | nil =>
      simp [alookup] at h
      simp [aset, userRoomCount, List.countP_cons, h]
  | cons p rest ih =>
      obtain ⟨k0, i0⟩ := p
      by_cases h0 : k0 = room
      · subst h0
        simp [alookup] at h
        simp [aset, userRoomCount, List.countP_cons, h]
      · simp [alookup, h0] at h
        have hih := ih h
        simp only [aset, if_neg h0, userRoomCount, List.countP_cons] at hih ⊢
        omega

theorem userRoomCount_aset_fresh (uir : List (String × List (String × String)))
    (room u : String) (newInner : List (String × String))
    (h0 : userRoomCount uir u = 0)
    (h1 : (alookup newInner u).isSome = true) :
    userRoomCount (aset uir room newInner) u = 1 := by
  induction uir with
  | nil => simp [aset, userRoomCount, List.countP_cons, h1]
  | cons p rest ih =>
      obtain ⟨k0, i0⟩ := p
      simp only [userRoomCount, List.countP_cons] at h0
      have hrest : userRoomCount rest u = 0 := by
        simp only [userRoomCount]; omega
      have hhead : ((alookup i0 u).isSome : Bool) = false := by
        by_cases hp : (alookup i0 u).isSome = true
        · simp [hp] at h0
        · simpa using hp
      by_cases hk : k0 = room
      · subst hk
        simp only [userRoomCount] at hrest
        simp only [aset, if_pos rfl, userRoomCount, List.countP_cons, h1,
          if_true]
        omega
      · have hih := ih hrest
        simp only [userRoomCount] at hih
        simp only [aset, if_neg hk, userRoomCount, List.countP_cons, hhead,
          Bool.false_eq_true, if_false]
        omega

theorem userRoomCount_aset_mono (uir : List (String × List (String × String)))
    (room u : String) (newInner : List (String × String))
    (h : (alookup newInner u).isSome = true →
         (alookup ((alookup uir room).getD []) u).isSome = true) :
    userRoomCount (aset uir room newInner) u ≤ userRoomCount uir u := by
  induction uir with
  | nil =>
      simp [alookup] at h
      simp [aset, userRoomCount, List.countP_cons, h]
  | cons p rest ih =>
      obtain ⟨k0, i0⟩ := p
      by_cases h0 : k0 = room
      · subst h0
        simp [alookup] at h
        simp only [aset, if_pos rfl, userRoomCount, List.countP_cons]
        by_cases hp : (alookup newInner u).isSome = true
        · simp [hp, h hp]
        · simp only [userRoomCount] at *
          by_cases hq : (alookup i0 u).isSome = true <;> simp [hp, hq] <;> omega
      · simp [alookup, h0] at h
        simp only [aset, if_neg h0, userRoomCount, List.countP_cons]
        have := ih h
        simp only [userRoomCount] at this
        omega

theorem userRoomCount_disconnectScan (sid u : String)
    (uir : List (String × List (String × String))) :
    userRoomCount (disconnectScan sid uir).1 u ≤ userRoomCount uir u := by
  induction uir with
  | nil => simp [disconnectScan]
  | cons p rest ih =>
      obtain ⟨r, users⟩ := p
      by_cases hf : (alookup users sid).isSome = true
      · have hmono : (alookup (aremove users sid) u).isSome = true →
            (alookup users u).isSome = true := by
          intro hh
          by_cases hu : u = sid
          · subst hu; exact alookup_isSome_aremove _ _ _ hh
          · rw [alookup_aremove_ne _ _ _ hu] at hh; exact hh
        simp only [disconnectScan, if_pos hf, userRoomCount, List.countP_cons]
        by_cases hp : (alookup (aremove users sid) u).isSome = true
        · simp [hp, hmono hp]
        · by_cases hq : (alookup users u).isSome = true <;> simp [hp, hq] <;> omega
      · simp only [disconnectScan, if_neg hf, userRoomCount, List.countP_cons]
        have := ih
        simp only [userRoomCount] at this
        omega

theorem stepState_preserves_invariant (st : ServerState) (e : PresenceEvent)
    (hInv : membershipInvariant st.users_in_rooms)
    (hOk : okEventB st e = true) :
    membershipInvariant (stepState st e).users_in_rooms := by
  cases e with
  | join sid db histErr data =>
      by_cases hval :
          (falsy data.room || falsy data.userId || falsy data.username) = true
      · simpa [stepState, handle_join_room, hval] using hInv
      · rw [Bool.not_eq_true] at hval
        have hcnt : userRoomCount st.users_in_rooms (data.userId.getD "") = 0 := by
          simpa [okEventB] using hOk
        intro u
        simp only [stepState, handle_join_room, hval, Bool.false_eq_true,
          if_false]
        by_cases hu : u = data.userId.getD ""
        · subst hu
          rw [userRoomCount_aset_fresh _ _ _ _ hcnt (by simp [alookup_aset_self])]
        · rw [userRoomCount_aset_same]
          · exact hInv u
          · rw [alookup_aset_ne _ _ _ _ hu]
  | leave sid data =>
      by_cases hval : (falsy data.room || falsy data.userId) = true
      · simpa [stepState, handle_leave_room, hval] using hInv
      · rw [Bool.not_eq_true] at hval
        rcases hr : alookup st.users_in_rooms (data.room.getD "") with _ | inner
        · simpa [stepState, handle_leave_room, hval, hr] using hInv
        · rcases hu : alookup inner (data.userId.getD "") with _ | username
          · simpa [stepState, handle_leave_room, hval, hr, hu] using hInv
          · intro u
            simp only [stepState, handle_leave_room, hval, Bool.false_eq_true,
              if_false, hr, hu]
            refine le_trans (userRoomCount_aset_mono _ _ _ _ ?_) (hInv u)
            intro hpred
            rw [hr]
            by_cases huu : u = data.userId.getD ""
            · subst huu
              exact alookup_isSome_aremove _ _ _ hpred
            · rwa [alookup_aremove_ne _ _ _ huu] at hpred
  | disc sid =>
      intro u
      simpa [stepState, handle_disconnect] using
        le_trans (userRoomCount_disconnectScan sid u st.users_in_rooms) (hInv u)

theorem runEvents_preserves_invariant (evs : List PresenceEvent) :
    ∀ st : ServerState, membershipInvariant st.users_in_rooms →
      okTraceB st evs = true →
      membershipInvariant (runEvents st evs).users_in_rooms := by
  induction evs with
  | nil =>
      intro st h _
      simpa [runEvents] using h
  | cons e rest ih =>
      intro st h hok
      rw [okTraceB, Bool.and_eq_true] at hok
      exact ih _ (stepState_preserves_invariant st e h hok.1) hok.2

/-! Claim theorems. -/

/-- C2: for every input text, `moderate_message` returns a verdict record and
never raises to its caller: not-configured maps to skipped/"AI unavailable",
a decoded `is_safe = true` maps to safe/"N/A", `is_safe = false` (or a missing
member) maps to unsafe with the reason defaulting to the generic flagged
string, and any raised error maps to error/"AI moderation failed: <detail>".
The status is always one of the four verdict labels. -/
theorem C2_moderation_contract (modelConfigured : Bool) (gem : GeminiOutcome)
    (text : String) :
    (modelConfigured = false →
      moderate_message modelConfigured gem text = ⟨"skipped", "AI unavailable"⟩) ∧
    (∀ e, modelConfigured = true → gem = .throwErr e →
      moderate_message modelConfigured gem text
        = ⟨"error", "AI moderation failed: " ++ e⟩) ∧
    (∀ r, modelConfigured = true → gem = .ok (some true) r →
      moderate_message modelConfigured gem text = ⟨"safe", "N/A"⟩) ∧
    (∀ b r, modelConfigured = true → gem = .ok b r → b ≠ some true →
      moderate_message modelConfigured gem text
        = ⟨"unsafe", r.getD "Content flagged by AI."⟩) ∧
    (moderate_message modelConfigured gem text).status
      ∈ (["skipped", "safe", "unsafe", "error"] : List String) := by
  refine ⟨?_, ?_, ?_, ?_, ?_⟩
  · intro h; simp [moderate_message, h]
  · intro e hm hg; simp [moderate_message, hm, hg]
  · intro r hm hg; simp [moderate_message, hm, hg]
  · intro b r hm hg hb
    have : b.getD false = false := by
      cases b with
      | none => rfl
      | some bv => cases bv with
        | false => rfl
        | true => exact absurd rfl hb
    simp [moderate_message, hm, hg, this]
  · cases modelConfigured with
    | false => simp [moderate_message]
    | true =>
        cases gem with
        | throwErr e => simp [moderate_message]
        | ok b r =>
            by_cases hb : b.getD false = true <;> simp [moderate_message, hb]

/-- C2 witness: the unsafe/default-reason case at a concrete input. -/
theorem C2_moderation_contract_witness :
    moderate_message true (.ok (some false) none) "hi"
      = ⟨"unsafe", "Content flagged by AI."⟩ :=
  (C2_moderation_contract true (.ok (some false) none) "hi").2.2.2.1
    (some false) none rfl rfl (by decide)

/-- C5: a send_message with any of the four fields empty or missing emits one
error event addressed to the sending connection only and terminates normally
(line 220's `return` runs before the handler's crash site on line 226): the
moderation body never runs, nothing is persisted, no receive_message is
emitted and nothing is raised (the handler never writes the membership state
at all, which the embedding reflects by `handle_message` having no state
component). -/
theorem C5_validation_failure (sid : String) (modelConfigured : Bool)
    (gem : GeminiOutcome) (db : Option DbWriteOutcome) (data : MsgData)
    (h : (falsy data.room || falsy data.userId || falsy data.username ||
      falsy data.message) = true) :
    handle_message sid modelConfigured gem db data
      = ⟨[⟨"error",
            .errorMsg "Room, userId, username, and message are required.",
            .sid sid⟩], none, false, none⟩ ∧
    (∀ e ∈ (handle_message sid modelConfigured gem db data).emits,
      e.event ≠ "receive_message") ∧
    (∀ subs c, receivesEmit subs c
        ⟨"error", .errorMsg "Room, userId, username, and message are required.",
          .sid sid⟩ = true ↔ c = sid) := by
  refine ⟨by simp [handle_message, h], ?_, ?_⟩
  · intro e he
    simp [handle_message, h] at he
    subst he
    simp
  · intro subs c
    simp [receivesEmit]

/-- C5 witness: a concrete send_message with a missing message field. -/
theorem C5_validation_failure_witness :
    (falsy (some "r1") || falsy (some "u1") || falsy (some "Alice") ||
      falsy (none : Option String)) = true ∧
    (handle_message "c1" true (.ok (some true) none) (some .ok)
        ⟨some "r1", some "u1", some "Alice", none⟩
      = ⟨[⟨"error",
            .errorMsg "Room, userId, username, and message are required.",
            .sid "c1"⟩], none, false, none⟩ ∧
    (∀ e ∈ (handle_message "c1" true (.ok (some true) none) (some .ok)
        ⟨some "r1", some "u1", some "Alice", none⟩).emits,
      e.event ≠ "receive_message") ∧
    (∀ subs c, receivesEmit subs c
        ⟨"error", .errorMsg "Room, userId, username, and message are required.",
          .sid "c1"⟩ = true ↔ c = "c1")) :=
  ⟨by decide,
    C5_validation_failure "c1" true (.ok (some true) none) (some .ok)
      ⟨some "r1", some "u1", some "Alice", none⟩ (by decide)⟩

/-- C6: code bug — the claim (persistence failure is reported to the sender
only and the broadcast still proceeds) describes the pipeline the handler's
docstring promises, but the handler raises the un-awaited-coroutine TypeError
on line 226 before the `if db:` persistence attempt on line 239 is ever
reached: even with the store configured and a write that would fail, no
persistence is attempted, nothing at all is emitted (neither the
sender-scoped error nor the receive_message broadcast), and the handler
aborts. -/
theorem C6_crash_precedes_persistence (sid : String) (modelConfigured : Bool)
    (gem : GeminiOutcome) (e : String) (data : MsgData)
    (hroom : falsy data.room = false) (huser : falsy data.userId = false)
    (hname : falsy data.username = false) (hmsg : falsy data.message = false) :
    (handle_message sid modelConfigured gem (some (.fail e)) data).persisted
      = none ∧
    (handle_message sid modelConfigured gem (some (.fail e)) data).emits
      = [] ∧
    (handle_message sid modelConfigured gem (some (.fail e)) data).raised
      = some coroutineSubscriptError := by
  refine ⟨?_, ?_, ?_⟩ <;> simp [handle_message, hroom, huser, hname, hmsg]

/-- C6 witness: a concrete valid message with a configured store whose write
would fail: the handler still raises first and attempts nothing. -/
theorem C6_crash_precedes_persistence_witness :
    falsy (some "r1") = false ∧
    ((handle_message "c1" true (.ok (some true) none) (some (.fail "boom"))
        ⟨some "r1", some "u1", some "Alice", some "hi"⟩).persisted = none ∧
    (handle_message "c1" true (.ok (some true) none) (some (.fail "boom"))
        ⟨some "r1", some "u1", some "Alice", some "hi"⟩).emits = [] ∧
    (handle_message "c1" true (.ok (some true) none) (some (.fail "boom"))
        ⟨some "r1", some "u1", some "Alice", some "hi"⟩).raised
      = some coroutineSubscriptError) :=
  ⟨rfl,
    C6_crash_precedes_persistence "c1" true (.ok (some true) none) "boom"
      ⟨some "r1", some "u1", some "Alice", some "hi"⟩ rfl rfl rfl rfl⟩

/-- C9: code bug — the claim (with no store client the handler skips
persistence silently and proceeds to the broadcast step) reads off the
`if db:` structure of lines 239-247, but that code is unreachable: the
handler raises the un-awaited-coroutine TypeError on line 226 on every valid
message.  With `db is None` it indeed attempts no persistence and emits no
error about the missing store — it emits nothing at all — but it never
proceeds to the broadcast step: it aborts with the TypeError. -/
theorem C9_crash_precedes_broadcast_without_store (sid : String)
    (modelConfigured : Bool) (gem : GeminiOutcome) (data : MsgData)
    (hroom : falsy data.room = false) (huser : falsy data.userId = false)
    (hname : falsy data.username = false) (hmsg : falsy data.message = false) :
    handle_message sid modelConfigured gem none data
      = ⟨[], none, false, some coroutineSubscriptError⟩ ∧
    (∀ em ∈ (handle_message sid modelConfigured gem none data).emits,
      em.event ≠ "error") := by
  constructor
  · simp [handle_message, hroom, huser, hname, hmsg]
  · intro em hem
    simp [handle_message, hroom, huser, hname, hmsg] at hem

/-- C9 witness: a concrete valid message with no store client configured. -/
theorem C9_crash_precedes_broadcast_without_store_witness :
    falsy (some "r1") = false ∧
    (handle_message "c1" false (.ok none none) none
        ⟨some "r1", some "u1", some "Alice", some "hi"⟩
      = ⟨[], none, false, some coroutineSubscriptError⟩ ∧
    (∀ em ∈ (handle_message "c1" false (.ok none none) none
        ⟨some "r1", some "u1", some "Alice", some "hi"⟩).emits,
      em.event ≠ "error")) :=
  ⟨rfl,
    C9_crash_precedes_broadcast_without_store "c1" false (.ok none none)
      ⟨some "r1", some "u1", some "Alice", some "hi"⟩ rfl rfl rfl rfl⟩

/-- C1: code bug — the claim (every valid send_message is broadcast as a
receive_message carrying the text and the embedded verdict to every
subscriber of the room) is the behaviour the handler's own docstring
("moderates them, stores in Firestore, and broadcasts") and the spec promise,
but on every valid message the handler raises `TypeError` on line 226: the
greenlet of line 225 calls the `async def` `moderate_message` and hands back
the un-awaited coroutine, whose subscript fails before moderation runs,
before any persistence attempt and before the broadcast (which line 253 would
abort anyway: `isinstance` with the `SERVER_TIMESTAMP` Sentinel instance
raises).  Nothing is emitted: no receive_message ever reaches any room. -/
theorem C1_valid_message_raises_before_broadcast (sid : String)
    (modelConfigured : Bool) (gem : GeminiOutcome) (db : Option DbWriteOutcome)
    (data : MsgData)
    (hroom : falsy data.room = false) (huser : falsy data.userId = false)
    (hname : falsy data.username = false) (hmsg : falsy data.message = false) :
    handle_message sid modelConfigured gem db data
      = ⟨[], none, false, some coroutineSubscriptError⟩ ∧
    (∀ e ∈ (handle_message sid modelConfigured gem db data).emits,
      e.event ≠ "receive_message") ∧
    (handle_message sid modelConfigured gem db data).moderationRan = false := by
  refine ⟨by simp [handle_message, hroom, huser, hname, hmsg], ?_, ?_⟩
  · intro e he
    simp [handle_message, hroom, huser, hname, hmsg] at he
  · simp [handle_message, hroom, huser, hname, hmsg]

/-- C1 witness: a concrete valid message (room r1, u1/Alice, "hi", store and
classifier both healthy) still raises and broadcasts nothing. -/
theorem C1_valid_message_raises_before_broadcast_witness :
    falsy (some "r1") = false ∧
    (handle_message "c1" true (.ok (some true) none) (some .ok)
        ⟨some "r1", some "u1", some "Alice", some "hi"⟩
      = ⟨[], none, false, some coroutineSubscriptError⟩ ∧
    (∀ e ∈ (handle_message "c1" true (.ok (some true) none) (some .ok)
        ⟨some "r1", some "u1", some "Alice", some "hi"⟩).emits,
      e.event ≠ "receive_message") ∧
    (handle_message "c1" true (.ok (some true) none) (some .ok)
        ⟨some "r1", some "u1", some "Alice", some "hi"⟩).moderationRan
      = false) :=
  ⟨rfl,
    C1_valid_message_raises_before_broadcast "c1" true (.ok (some true) none)
      (some .ok) ⟨some "r1", some "u1", some "Alice", some "hi"⟩
      rfl rfl rfl rfl⟩

/-- C8: a valid leave_room naming a user who is not in that room's membership
emits nothing — no user_left, no error to anyone — and leaves the membership
store unchanged; the absence is only logged. -/
theorem C8_leave_absent_member_is_silent (sid : String) (st : ServerState)
    (data : LeaveData)
    (hroom : falsy data.room = false) (huser : falsy data.userId = false)
    (habs : alookup ((alookup st.users_in_rooms (data.room.getD "")).getD [])
        (data.userId.getD "") = none) :
    (handle_leave_room sid st data).2 = [] ∧
    (handle_leave_room sid st data).1.users_in_rooms = st.users_in_rooms := by
  rcases hr : alookup st.users_in_rooms (data.room.getD "") with _ | inner
  · constructor <;> simp [handle_leave_room, hroom, huser, hr]
  · rw [hr] at habs
    simp only [Option.getD_some] at habs
    constructor <;> simp [handle_leave_room, hroom, huser, hr, habs]

/-- C8 witness: a leave for a user who never joined the (existing) room. -/
theorem C8_leave_absent_member_is_silent_witness :
    falsy (some "r1") = false ∧
    ((handle_leave_room "c2"
        ⟨[("r1", [("u1", "Alice")])], [("r1", ["c1", "c2"])]⟩
        ⟨some "r1", some "u2"⟩).2 = [] ∧
    (handle_leave_room "c2"
        ⟨[("r1", [("u1", "Alice")])], [("r1", ["c1", "c2"])]⟩
        ⟨some "r1", some "u2"⟩).1.users_in_rooms = [("r1", [("u1", "Alice")])]) :=
  ⟨rfl,
    C8_leave_absent_member_is_silent "c2"
      ⟨[("r1", [("u1", "Alice")])], [("r1", ["c1", "c2"])]⟩
      ⟨some "r1", some "u2"⟩ rfl rfl (by decide)⟩

/-- C10: every valid leave_room removes the requesting connection from the
room's broadcast group, regardless of whether the userId is found in the
membership mapping — the unsubscribe happens before the membership check. -/
theorem C10_leave_always_unsubscribes (sid : String) (st : ServerState)
    (data : LeaveData)
    (hroom : falsy data.room = false) (huser : falsy data.userId = false) :
    sid ∉ roomSubs (handle_leave_room sid st data).1.subs (data.room.getD "") := by
  have hsub : ∀ subs : List (String × List String),
      sid ∉ roomSubs (leaveSub subs (data.room.getD "") sid) (data.room.getD "") := by
    intro subs
    simp only [leaveSub, roomSubs, alookup_aset_self, Option.getD_some]
    simp
  rcases hr : alookup st.users_in_rooms (data.room.getD "") with _ | inner
  · simpa [handle_leave_room, hroom, huser, hr] using hsub st.subs
  · rcases hu : alookup inner (data.userId.getD "") with _ | username
    · simpa [handle_leave_room, hroom, huser, hr, hu] using hsub st.subs
    · simpa [handle_leave_room, hroom, huser, hr, hu] using hsub st.subs

/-- C10 witness: a subscribed connection whose user never joined the
membership mapping is still unsubscribed by leave_room. -/
theorem C10_leave_always_unsubscribes_witness :
    falsy (some "r1") = false ∧
    "c1" ∉ roomSubs (handle_leave_room "c1"
        ⟨[], [("r1", ["c1", "c2"])]⟩ ⟨some "r1", some "u1"⟩).1.subs "r1" :=
  ⟨rfl,
    C10_leave_always_unsubscribes "c1" ⟨[], [("r1", ["c1", "c2"])]⟩
      ⟨some "r1", some "u1"⟩ rfl rfl⟩

/-- C7 as amended: the single-room invariant holds along every event sequence
from the initial state in which no user joins a room while currently a member
of any room.  The data structures do not enforce the discipline themselves
(see the counterexample): a join never removes the user from a previous
room. -/
theorem C7_single_room_invariant (evs : List PresenceEvent)
    (h : okTraceB emptyState evs = true) :
    membershipInvariant (runEvents emptyState evs).users_in_rooms :=
  runEvents_preserves_invariant evs emptyState
    (fun u => by simp [userRoomCount, emptyState]) h

/-- C7 witness: a disciplined two-event trace (join one room, leave it). -/
theorem C7_single_room_invariant_witness :
    okTraceB emptyState
      [PresenceEvent.join "c1" none none ⟨some "r1", some "u1", some "Alice"⟩,
       PresenceEvent.leave "c1" ⟨some "r1", some "u1"⟩] = true ∧
    membershipInvariant (runEvents emptyState
      [PresenceEvent.join "c1" none none ⟨some "r1", some "u1", some "Alice"⟩,
       PresenceEvent.leave "c1" ⟨some "r1", some "u1"⟩]).users_in_rooms :=
  ⟨by decide,
    C7_single_room_invariant
      [PresenceEvent.join "c1" none none ⟨some "r1", some "u1", some "Alice"⟩,
       PresenceEvent.leave "c1" ⟨some "r1", some "u1"⟩] (by decide)⟩

/-- C7 counterexample: the claim as stated fails on a reachable state — a
connection joins room r1 as u1 and then joins r2 as u1 without leaving, after
which u1 is a member of two rooms at once. -/
theorem C7_counterexample :
    userRoomCount (runEvents emptyState
      [PresenceEvent.join "c1" none none ⟨some "r1", some "u1", some "Alice"⟩,
       PresenceEvent.join "c1" none none ⟨some "r2", some "u1", some "Alice"⟩]).users_in_rooms
      "u1" = 2 := by decide

theorem disconnectScan_characterisation (sid : String)
    (uir : List (String × List (String × String))) :
    ((∀ p ∈ uir, alookup p.2 sid = none) ∧ disconnectScan sid uir = (uir, [])) ∨
    (∃ pre r users post,
      uir = pre ++ (r, users) :: post ∧
      (∀ p ∈ pre, alookup p.2 sid = none) ∧
      (alookup users sid).isSome = true ∧
      disconnectScan sid uir
        = (pre ++ (r, aremove users sid) :: post,
            [⟨"user_left", .userEvent sid "A user", .room r (some sid)⟩])) := by
  induction uir with
  | nil => exact Or.inl ⟨by simp, rfl⟩
  | cons p rest ih =>
      obtain ⟨r0, users0⟩ := p
      by_cases hf : (alookup users0 sid).isSome = true
      · refine Or.inr ⟨[], r0, users0, rest, by simp, by simp, hf, ?_⟩
        simp [disconnectScan, hf]
      · rcases ih with ⟨hall, heq⟩ | ⟨pre, r, users, post, hsplit, hpre, hfound, heq⟩
        · refine Or.inl ⟨?_, ?_⟩
          · intro q hq
            rcases List.mem_cons.mp hq with hq | hq
            · subst hq
              simpa using Option.not_isSome_iff_eq_none.mp hf
            · exact hall q hq
          · simp [disconnectScan, hf, heq]
        · refine Or.inr ⟨(r0, users0) :: pre, r, users, post, by simp [hsplit], ?_,
            hfound, ?_⟩
          · intro q hq
            rcases List.mem_cons.mp hq with hq | hq
            · subst hq
              simpa using Option.not_isSome_iff_eq_none.mp hf
            · exact hpre q hq
          · simp [disconnectScan, hf, heq]

/-- C3 as amended: the disconnect handler scans rooms in dict order for the
socket id appearing as a *userId key*.  When no room's membership contains the
sid as a key — in particular whenever the connection joined under a userId
different from its sid — nothing is removed and nothing is emitted.  When some
room does, exactly the first such room has that entry removed, the other rooms
are untouched, and exactly one user_left is emitted to that room (skipping the
disconnecting sid) carrying the sid as userId and the placeholder name
"A user". -/
theorem C3_disconnect_first_match_or_nothing (sid : String) (st : ServerState) :
    ((∀ p ∈ st.users_in_rooms, alookup p.2 sid = none) ∧
      handle_disconnect sid st = (st, [])) ∨
    (∃ pre r users post,
      st.users_in_rooms = pre ++ (r, users) :: post ∧
      (∀ p ∈ pre, alookup p.2 sid = none) ∧
      (alookup users sid).isSome = true ∧
      handle_disconnect sid st
        = (⟨pre ++ (r, aremove users sid) :: post, st.subs⟩,
            [⟨"user_left", .userEvent sid "A user", .room r (some sid)⟩])) := by
  rcases disconnectScan_characterisation sid st.users_in_rooms with
    ⟨hall, heq⟩ | ⟨pre, r, users, post, hsplit, hpre, hfound, heq⟩
  · exact Or.inl ⟨hall, by simp [handle_disconnect, heq]⟩
  · exact Or.inr ⟨pre, r, users, post, hsplit, hpre, hfound,
      by simp [handle_disconnect, heq]⟩

/-- C3 counterexample: connection c1 joins room r1 under userId u1 (different
from its sid) and then disconnects.  The claim requires the membership entry
to be removed and a user_left to be notified exactly once; the code finds
nothing (it looks the sid up among userId keys), removes nothing and emits
nothing. -/
theorem C3_counterexample :
    (handle_disconnect "c1"
        (handle_join_room "c1" none none emptyState
          ⟨some "r1", some "u1", some "Alice"⟩).1).2 = [] ∧
    (handle_disconnect "c1"
        (handle_join_room "c1" none none emptyState
          ⟨some "r1", some "u1", some "Alice"⟩).1).1.users_in_rooms
      = [("r1", [("u1", "Alice")])] := by decide

theorem fetchHistory_length_le (store : List StoredMsg) (room : String) :
    (fetchHistory store room).length ≤ 20 := by
  simpa [fetchHistory] using
    List.length_take_le 20
      (List.insertionSort tsLe (store.filter (fun m => m.room = room)))

theorem fetchHistory_sorted (store : List StoredMsg) (room : String) :
    List.Pairwise tsLe (fetchHistory store room) :=
  List.Pairwise.sublist (List.take_sublist 20 _)
    (List.sorted_insertionSort tsLe (store.filter (fun m => m.room = room)))

theorem fetchHistory_le_unfetched (store : List StoredMsg) (room : String)
    (a : StoredMsg) (ha : a ∈ fetchHistory store room)
    (b : StoredMsg) (hb : b ∈ store.filter (fun m => m.room = room))
    (hnb : b ∉ fetchHistory store room) :
    a.timestamp ≤ b.timestamp := by
  have hsort : List.Pairwise tsLe
      ((List.insertionSort tsLe (store.filter (fun m => m.room = room))).take 20 ++
        (List.insertionSort tsLe (store.filter (fun m => m.room = room))).drop 20) := by
    rw [List.take_append_drop]
    exact List.sorted_insertionSort tsLe _
  have hcross := (List.pairwise_append.mp hsort).2.2
  have hbs : b ∈
      (List.insertionSort tsLe (store.filter (fun m => m.room = room))).take 20 ++
        (List.insertionSort tsLe (store.filter (fun m => m.room = room))).drop 20 := by
    rw [List.take_append_drop]
    exact ((List.perm_insertionSort tsLe _).mem_iff).mpr hb
  rcases List.mem_append.mp hbs with hbt | hbd
  · exact absurd hbt (by simpa [fetchHistory] using hnb)
  · exact hcross a (by simpa [fetchHistory] using ha) b hbd

theorem fetchHistory_strict_of_nodup (store : List StoredMsg) (room : String)
    (hnd : ((store.filter (fun m => m.room = room)).map
      (fun m => m.timestamp)).Nodup) :
    List.Pairwise (· < ·)
      ((fetchHistory store room).map (fun m => m.timestamp)) := by
  have hperm : List.Perm
      (List.insertionSort tsLe (store.filter (fun m => m.room = room)))
      (store.filter (fun m => m.room = room)) :=
    List.perm_insertionSort tsLe _
  have hndS : ((List.insertionSort tsLe
      (store.filter (fun m => m.room = room))).map
        (fun m => m.timestamp)).Nodup :=
    ((hperm.map (fun m => m.timestamp)).nodup_iff).mpr hnd
  have hle : List.Pairwise (fun x y : Nat => x ≤ y)
      ((List.insertionSort tsLe (store.filter (fun m => m.room = room))).map
        (fun m => m.timestamp)) :=
    (List.pairwise_map).mpr (List.sorted_insertionSort tsLe _)
  have hlt : List.Pairwise (fun x y : Nat => x < y)
      ((List.insertionSort tsLe (store.filter (fun m => m.room = room))).map
        (fun m => m.timestamp)) :=
    (hle.and hndS).imp (fun hh => lt_of_le_of_ne hh.1 hh.2)
  have : (fetchHistory store room).map (fun m => m.timestamp)
      = ((List.insertionSort tsLe (store.filter (fun m => m.room = room))).map
          (fun m => m.timestamp)).take 20 := by
    simp [fetchHistory, List.map_take]
  rw [this]
  exact List.Pairwise.sublist (List.take_sublist 20 _) hlt

/-- C4 as amended: for every valid join_room processed with the store
available and the fetch succeeding, the joining connection (and only it)
receives one chat_history event containing at most 20 messages of that room —
specifically the *earliest* 20 by timestamp (Firestore's ascending `order_by`
with `limit(20)` keeps the first 20 of the ascending order), ordered by
ascending timestamp, strictly when the room's stored timestamps are
distinct. -/
theorem C4_history_earliest20_ascending (sid : String)
    (store : List StoredMsg) (st : ServerState) (data : JoinData)
    (hroom : falsy data.room = false) (huser : falsy data.userId = false)
    (hname : falsy data.username = false) :
    (handle_join_room sid (some store) none st data).2
      = [⟨"user_joined",
            .userEvent (data.userId.getD "") (data.username.getD ""),
            .room (data.room.getD "") (some sid)⟩,
         ⟨"chat_history",
            .chatHistory
              ((fetchHistory store (data.room.getD "")).map docToHist),
            .sid sid⟩] ∧
    (fetchHistory store (data.room.getD "")).length ≤ 20 ∧
    List.Pairwise (· ≤ ·)
      (((fetchHistory store (data.room.getD "")).map docToHist).map
        (fun m => m.timestamp)) ∧
    (∀ a ∈ fetchHistory store (data.room.getD ""),
      ∀ b ∈ store.filter (fun m => m.room = data.room.getD ""),
        b ∉ fetchHistory store (data.room.getD "") →
          a.timestamp ≤ b.timestamp) ∧
    (((store.filter (fun m => m.room = data.room.getD "")).map
        (fun m => m.timestamp)).Nodup →
      List.Pairwise (· < ·)
        (((fetchHistory store (data.room.getD "")).map docToHist).map
          (fun m => m.timestamp))) := by
  have hmapts : ((fetchHistory store (data.room.getD "")).map docToHist).map
      (fun m => m.timestamp)
      = (fetchHistory store (data.room.getD "")).map (fun m => m.timestamp) := by
    rw [List.map_map]
    rfl
  refine ⟨?_, fetchHistory_length_le store _, ?_, ?_, ?_⟩
  · simp [handle_join_room, hroom, huser, hname]
  · rw [hmapts]
    exact (List.pairwise_map).mpr (fetchHistory_sorted store _)
  · exact fun a ha b hb hnb => fetchHistory_le_unfetched store _ a ha b hb hnb
  · intro hnd
    rw [hmapts]
    exact fetchHistory_strict_of_nodup store _ hnd

/-- C4 witness: a concrete valid join against a two-message store. -/
theorem C4_history_earliest20_ascending_witness :
    falsy (some "r1") = false ∧
    ((handle_join_room "c2"
        (some [⟨"r1", "u1", "Alice", "hi", 5, "safe", "N/A"⟩,
               ⟨"r1", "u1", "Alice", "again", 9, "safe", "N/A"⟩])
        none ⟨[("r1", [("u1", "Alice")])], [("r1", ["c1"])]⟩
        ⟨some "r1", some "u2", some "Bob"⟩).2
      = [⟨"user_joined", .userEvent "u2" "Bob", .room "r1" (some "c2")⟩,
         ⟨"chat_history",
            .chatHistory ((fetchHistory
              [⟨"r1", "u1", "Alice", "hi", 5, "safe", "N/A"⟩,
               ⟨"r1", "u1", "Alice", "again", 9, "safe", "N/A"⟩] "r1").map docToHist),
            .sid "c2"⟩] ∧
    (fetchHistory [⟨"r1", "u1", "Alice", "hi", 5, "safe", "N/A"⟩,
        ⟨"r1", "u1", "Alice", "again", 9, "safe", "N/A"⟩] "r1").length ≤ 20 ∧
    List.Pairwise (· ≤ ·)
      (((fetchHistory [⟨"r1", "u1", "Alice", "hi", 5, "safe", "N/A"⟩,
          ⟨"r1", "u1", "Alice", "again", 9, "safe", "N/A"⟩] "r1").map docToHist).map
        (fun m => m.timestamp)) ∧
    (∀ a ∈ fetchHistory [⟨"r1", "u1", "Alice", "hi", 5, "safe", "N/A"⟩,
        ⟨"r1", "u1", "Alice", "again", 9, "safe", "N/A"⟩] "r1",
      ∀ b ∈ [⟨"r1", "u1", "Alice", "hi", 5, "safe", "N/A"⟩,
          ⟨"r1", "u1", "Alice", "again", 9, "safe", "N/A"⟩].filter
            (fun m : StoredMsg => m.room = "r1"),
        b ∉ fetchHistory [⟨"r1", "u1", "Alice", "hi", 5, "safe", "N/A"⟩,
            ⟨"r1", "u1", "Alice", "again", 9, "safe", "N/A"⟩] "r1" →
          a.timestamp ≤ b.timestamp) ∧
    ((([⟨"r1", "u1", "Alice", "hi", 5, "safe", "N/A"⟩,
        ⟨"r1", "u1", "Alice", "again", 9, "safe", "N/A"⟩].filter
          (fun m : StoredMsg => m.room = "r1")).map
        (fun m => m.timestamp)).Nodup →
      List.Pairwise (· < ·)
        (((fetchHistory [⟨"r1", "u1", "Alice", "hi", 5, "safe", "N/A"⟩,
            ⟨"r1", "u1", "Alice", "again", 9, "safe", "N/A"⟩] "r1").map docToHist).map
          (fun m => m.timestamp)))) :=
  ⟨rfl,
    C4_history_earliest20_ascending "c2"
      [⟨"r1", "u1", "Alice", "hi", 5, "safe", "N/A"⟩,
       ⟨"r1", "u1", "Alice", "again", 9, "safe", "N/A"⟩]
      ⟨[("r1", [("u1", "Alice")])], [("r1", ["c1"])]⟩
      ⟨some "r1", some "u2", some "Bob"⟩ rfl rfl rfl⟩

/-- C4 counterexample: with 21 stored messages of the room carrying
timestamps 0..20, the claim requires the most recent 20 (timestamps 1..20) in
the chat_history; the handler sends timestamps 0..19 and omits the most
recent message entirely. -/
theorem C4_counterexample :
    historyTimestamps ((handle_join_room "c2" (some storeC4) none emptyState
        ⟨some "r1", some "u2", some "Bob"⟩).2) = List.range 20 ∧
    (20 : Nat) ∉ historyTimestamps ((handle_join_room "c2" (some storeC4) none
        emptyState ⟨some "r1", some "u2", some "Bob"⟩).2) := by
  constructor <;> decide

end Chat
